import Mathlib

/-!
Shallow embedding of the deno-service MCP tool server (src/unnamed/part_000,
a TypeScript program).  Raw tool arguments arrive over the transport as
JSON-decoded values, so they are modelled by the inductive `JSValue`
(objects keep insertion order, as JavaScript objects do for string keys;
numbers are modelled as integers, the only numbers these claims touch).
Filesystem effects are modelled as a trace of `FsOp` operations together
with an oracle deciding which operation fails and with what error message.
Node's `path.resolve`/`path.join` are modelled for the plain
slash-separated paths this program composes (no `..` normalization, which
no claim touches).
-/

/-- JavaScript `||` on an optional string: the left value when it is
present and non-empty (truthy), otherwise the default. -/
def jsOrStr : Option String → String → String
  | some s, d => if s = "" then d else s
  | none, d => d

/-- JavaScript truthiness of an optional string value. -/
def strTruthy : Option String → Bool
  | some s => s ≠ ""
  | none => false

/-- The `RenderConfig` interface: process-wide settings. -/
structure RenderConfig where
  apiKey : Option String
  region : Option String

/-- Constructor, lines 64-67: `apiKey: process.env.RENDER_API_KEY,
region: process.env.RENDER_REGION || 'oregon'`. -/
def loadRenderConfig (apiKeyEnv regionEnv : Option String) : RenderConfig :=
  { apiKey := apiKeyEnv, region := some (jsOrStr regionEnv "oregon") }

/-- JSON-decoded JavaScript values, as delivered for `request.params.arguments`
and as serialized by `JSON.stringify`. -/
inductive JSValue where
  | null
  | bool (b : Bool)
  | num (n : Int)
  | str (s : String)
  | arr (elems : List JSValue)
  | obj (fields : List (String × JSValue))

/-- Property lookup on an object's field list; the last binding of a key
wins, as in a JavaScript object built left to right. -/
def lookupLast : List (String × JSValue) → String → Option JSValue
  | [], _ => none
  | (k', v) :: rest, k =>
    match lookupLast rest k with
    | some r => some r
    | none => if k' = k then some v else none

/-- Property access `value[k]`; `none` models `undefined`. -/
def getField : JSValue → String → Option JSValue
  | .obj kvs, k => lookupLast kvs k
  | _, _ => none

/-- Whether `typeof v === 'object'` holds in JavaScript. -/
def jsTypeofObject : JSValue → Bool
  | .obj _ => true
  | .arr _ => true
  | .null => true
  | _ => false

/-- Whether the value is the JavaScript `null` literal. -/
def isNullJS : JSValue → Bool
  | .null => true
  | _ => false

/-- The check `typeof args === 'object' && args !== null` applied to the raw
(possibly absent) arguments value. -/
def argsObjectOk : Option JSValue → Bool
  | some v => jsTypeofObject v && !isNullJS v
  | none => false

/-- Field access on the raw arguments value (absent arguments have no fields). -/
def getFieldOpt : Option JSValue → String → Option JSValue
  | some v, k => getField v k
  | none, _ => none

/-- The subset of `ErrorCode` this program raises. -/
inductive ErrorCode where
  | invalidParams
  | methodNotFound
deriving DecidableEq

/-- `McpError`: a protocol-level structured error. -/
structure McpError where
  code : ErrorCode
  message : String
deriving DecidableEq

/-- Validated `CreateServiceArgs` (interface lines 13-18). -/
structure CreateServiceArgs where
  name : String
  path : String
  port : Option Int
  description : Option String
deriving DecidableEq

/-- Validated `GenerateRenderConfigArgs` (interface lines 20-27).  The
source casts `envVars` unchecked (`envVars as Record<string, string>`),
so the field keeps the raw object value that passed the type-of check. -/
structure GenerateRenderConfigArgs where
  name : String
  path : String
  envVars : Option JSValue
  serviceId : Option String
  region : Option String
  plan : Option String

/-- `validateCreateServiceArgs`, lines 163-183: requires an object, string
`name` and `path`; `port` is kept only when a number, `description` only
when a string, both silently dropped to `undefined` otherwise. -/
def validateCreateServiceArgs (raw : Option JSValue) : Except McpError CreateServiceArgs :=
  if argsObjectOk raw then
    match getFieldOpt raw "name" with
    | some (.str name) =>
      match getFieldOpt raw "path" with
      | some (.str path) =>
        .ok { name := name, path := path,
              port := (match getFieldOpt raw "port" with
                       | some (.num n) => some n
                       | _ => none),
              description := (match getFieldOpt raw "description" with
                              | some (.str s) => some s
                              | _ => none) }
      | _ => .error ⟨.invalidParams, "path must be a string"⟩
    | _ => .error ⟨.invalidParams, "name must be a string"⟩
  else .error ⟨.invalidParams, "Arguments must be an object"⟩

/-- Two spaces of indentation per nesting depth, as produced by
`JSON.stringify(v, null, 2)`. -/
def indentChars : Nat → List Char
  | 0 => []
  | d + 1 => ' ' :: ' ' :: indentChars d

/-- Lower-case hexadecimal digit for `n < 16`. -/
def hexDigitChar (n : Nat) : Char :=
  if n < 10 then Char.ofNat (48 + n) else Char.ofNat (87 + n)

/-- The escape `JSON.stringify` applies to one character inside a string
literal: quote, backslash, the named control escapes, `\u00XX` for the
remaining control characters, and every other character verbatim. -/
def escapeChar (c : Char) : List Char :=
  if c = '"' then ['\\', '"']
  else if c = '\\' then ['\\', '\\']
  else if c = '\n' then ['\\', 'n']
  else if c = '\r' then ['\\', 'r']
  else if c = '\t' then ['\\', 't']
  else if c = '\x08' then ['\\', 'b']
  else if c = '\x0c' then ['\\', 'f']
  else if c.toNat < 32 then
    ['\\', 'u', '0', '0', hexDigitChar (c.toNat / 16), hexDigitChar (c.toNat % 16)]
  else [c]

/-- Escape every character of a string body. -/
def escapeStr : List Char → List Char
  | [] => []
  | c :: rest => escapeChar c ++ escapeStr rest

/-- A JSON string literal: quoted, escaped body. -/
def quoteStr (s : String) : List Char := '"' :: (escapeStr s.data ++ ['"'])

/-- Decimal digits of a natural number, most significant first. -/
def natDigits (n : Nat) : List Char :=
  if h : n < 10 then [Char.ofNat (48 + n)]
  else natDigits (n / 10) ++ [Char.ofNat (48 + n % 10)]
termination_by n
decreasing_by exact Nat.div_lt_self (by omega) (by omega)

/-- Decimal rendering of an integer, as `JSON.stringify` prints it. -/
def renderInt : Int → List Char
  | .ofNat m => natDigits m
  | .negSucc m => '-' :: natDigits (m + 1)

mutual

/-- `JSON.stringify(v, null, 2)` at nesting depth `d` (the depth indents
the members; the closing bracket is indented at `d`). -/
def renderVal (d : Nat) : JSValue → List Char
  | .bool b => if b then 't' :: ['r', 'u', 'e'] else 'f' :: ['a', 'l', 's', 'e']
  | .null => 'n' :: ['u', 'l', 'l']
  | .num n => renderInt n
  | .str s => quoteStr s
  | .arr [] => ['[', ']']
  | .arr (x :: xs) =>
    '[' :: '\n' :: (renderElems (d + 1) x xs ++ '\n' :: (indentChars d ++ [']']))
  | .obj [] => ['\x7b', '\x7d']
  | .obj ((k, v) :: kvs) =>
    '\x7b' :: '\n' :: (renderMembers (d + 1) k v kvs ++ '\n' :: (indentChars d ++ ['\x7d']))
termination_by v => sizeOf v

/-- The comma-and-newline separated, indented elements of a non-empty array. -/
def renderElems (d : Nat) (x : JSValue) : List JSValue → List Char
  | [] => indentChars d ++ renderVal d x
  | y :: ys => indentChars d ++ (renderVal d x ++ ',' :: '\n' :: renderElems d y ys)
termination_by xs => sizeOf x + sizeOf xs

/-- The comma-and-newline separated, indented members of a non-empty object. -/
def renderMembers (d : Nat) (k : String) (v : JSValue) : List (String × JSValue) → List Char
  | [] => indentChars d ++ (quoteStr k ++ ':' :: ' ' :: renderVal d v)
  | (k', v') :: ms =>
    indentChars d ++
      (quoteStr k ++ ':' :: ' ' :: (renderVal d v ++ ',' :: '\n' :: renderMembers d k' v' ms))
termination_by ms => sizeOf v + sizeOf ms

end

/-- `JSON.stringify(v, null, 2)` as a string. -/
def stringifyJson (v : JSValue) : String := String.mk (renderVal 0 v)

/-- Validation of one optional string-typed field of
`validateGenerateRenderConfigArgs`: absent is fine, a present non-string
is an `InvalidParams` error. -/
def optStringField (raw : Option JSValue) (k msg : String) : Except McpError (Option String) :=
  match getFieldOpt raw k with
  | none => .ok none
  | some (.str s) => .ok (some s)
  | some _ => .error ⟨.invalidParams, msg⟩

/-- `validateGenerateRenderConfigArgs`, lines 185-219: requires an object,
string `name` and `path`; a present `envVars` must satisfy
`typeof envVars === 'object' && envVars !== null`; present `serviceId`,
`region`, `plan` must be strings.  Wrong-typed optional fields throw. -/
def validateGenerateRenderConfigArgs (raw : Option JSValue) :
    Except McpError GenerateRenderConfigArgs :=
  if argsObjectOk raw then
    match getFieldOpt raw "name" with
    | some (.str name) =>
      match getFieldOpt raw "path" with
      | some (.str path) =>
        match (match getFieldOpt raw "envVars" with
               | none => Except.ok none
               | some v =>
                 if jsTypeofObject v && !isNullJS v then Except.ok (some v)
                 else Except.error (⟨.invalidParams, "envVars must be an object if provided"⟩ : McpError)) with
        | .error e => .error e
        | .ok envVars =>
          match optStringField raw "serviceId" "serviceId must be a string if provided" with
          | .error e => .error e
          | .ok serviceId =>
            match optStringField raw "region" "region must be a string if provided" with
            | .error e => .error e
            | .ok region =>
              match optStringField raw "plan" "plan must be a string if provided" with
              | .error e => .error e
              | .ok plan => .ok ⟨name, path, envVars, serviceId, region, plan⟩
      | _ => .error ⟨.invalidParams, "path must be a string"⟩
    | _ => .error ⟨.invalidParams, "name must be a string"⟩
  else .error ⟨.invalidParams, "Arguments must be an object"⟩

/-- JavaScript `args.port || 8000` on the validated optional port number:
an absent or zero (falsy) port yields the default 8000. -/
def portValue : Option Int → Int
  | some p => if p = 0 then 8000 else p
  | none => 8000

/-- The generated `main.ts` text up to the interpolated port. -/
def mainPrefix : String :=
  "import \x7b Application \x7d from \"https://deno.land/x/oak/mod.ts\";\n\nconst app = new Application();\nconst port = "

/-- The generated `main.ts` text after the interpolated port. -/
def mainSuffix : String :=
  ";\n\n// Logger middleware\napp.use(async (ctx, next) => \x7b\n  await next();\n  const rt = ctx.response.headers.get(\"X-Response-Time\");\n  console.log(`$\x7bctx.request.method\x7d $\x7bctx.request.url\x7d - $\x7brt\x7d`);\n\x7d);\n\n// Response time middleware\napp.use(async (ctx, next) => \x7b\n  const start = Date.now();\n  await next();\n  const ms = Date.now() - start;\n  ctx.response.headers.set(\"X-Response-Time\", `$\x7bms\x7dms`);\n\x7d);\n\n// Routes\napp.use((ctx) => \x7b\n  ctx.response.body = \x7b message: \"Welcome to your Deno service!\" \x7d;\n\x7d);\n\nconsole.log(`Server running on http://localhost:$\x7bport\x7d`);\nawait app.listen(\x7b port \x7d);"

/-- `mainContent`, lines 227-253: the fixed entrypoint program text with
the port interpolated via `args.port || 8000`. -/
def mainContent (args : CreateServiceArgs) : String :=
  mainPrefix ++ toString (portValue args.port) ++ mainSuffix

/-- `denoConfig`, lines 258-281: the manifest object serialized into
`deno.json` (property insertion order preserved). -/
def denoConfig : JSValue :=
  .obj [
    ("tasks", .obj [
      ("start", .str "deno run --allow-net main.ts"),
      ("dev", .str "deno run --allow-net --watch main.ts"),
      ("test", .str "deno test --allow-net")]),
    ("fmt", .obj [
      ("files", .obj [("include", .arr [.str "**/*.ts"])]),
      ("options", .obj [("lineWidth", .num 100), ("indentWidth", .num 2)])]),
    ("lint", .obj [
      ("files", .obj [("include", .arr [.str "**/*.ts"])]),
      ("rules", .obj [("tags", .arr [.str "recommended"])])])]

/-- The fixed tail of the generated `README.md`, after name and optional
description. -/
def readmeBody : String :=
  "\n## Development\n\nStart the development server:\n\n```bash\ndeno task dev\n```\n\nRun tests:\n\n```bash\ndeno task test\n```\n\n## Production\n\nStart the production server:\n\n```bash\ndeno task start\n```\n\n## API Documentation\n\n- `GET /` - Welcome message\n"

/-- `readmeContent`, lines 289-316: name header, then
`args.description ? "\n" + args.description + "\n" : ""` (truthiness:
an empty description is dropped), then the fixed body. -/
def readmeContent (args : CreateServiceArgs) : String :=
  "# " ++ args.name ++ "\n" ++
    (match args.description with
     | some d => if d = "" then "" else "\n" ++ d ++ "\n"
     | none => "") ++ readmeBody

/-- Node `path.resolve(base, name)` for this program's inputs: `name` when
absolute, otherwise `base` extended with `name` (dot-segment
normalization and a relative `base` are outside every claim). -/
def resolvePath (base name : String) : String :=
  match name.data with
  | '/' :: _ => name
  | _ => base ++ "/" ++ name

/-- Node `path.join(a, b)` for this program's inputs. -/
def joinPath (a b : String) : String := a ++ "/" ++ b

/-- One filesystem operation the handlers perform through `fs.promises`:
`fs.mkdir(p, { recursive: true })` (idempotent on an existing directory)
or `fs.writeFile(p, content)` (unconditional overwrite). -/
inductive FsOp where
  | mkdirRecursive (p : String)
  | writeFile (p : String) (content : String)
deriving DecidableEq

/-- Whether the operation is a directory creation. -/
def isMkdirOp : FsOp → Bool
  | .mkdirRecursive _ => true
  | .writeFile _ _ => false

/-- The environment's answer to each filesystem operation: `none` means it
succeeds, `some msg` means it rejects with an `Error` whose message is
`msg`. -/
def FsOracle := FsOp → Option String

/-- Run filesystem operations in order, stopping at the first failure;
returns the trace of attempted operations and the failure message, if any. -/
def runOps : List FsOp → FsOracle → List FsOp × Option String
  | [], _ => ([], none)
  | op :: rest, oracle =>
    match oracle op with
    | some msg => ([op], some msg)
    | none =>
      let r := runOps rest oracle
      (op :: r.1, r.2)

/-- The tool result the handlers return: a single text content block and
the `isError` flag (`false` models the field being absent). -/
structure ToolResult where
  text : String
  isError : Bool
deriving DecidableEq

/-- The filesystem operations of `handleCreateService`, lines 221-318:
recursive mkdir of `resolve(path, name)`, then the three file writes. -/
def createOps (args : CreateServiceArgs) : List FsOp :=
  [.mkdirRecursive (resolvePath args.path args.name),
   .writeFile (joinPath (resolvePath args.path args.name) "main.ts") (mainContent args),
   .writeFile (joinPath (resolvePath args.path args.name) "deno.json") (stringifyJson denoConfig),
   .writeFile (joinPath (resolvePath args.path args.name) "README.md") (readmeContent args)]

/-- `handleCreateService`, lines 221-340: run the operations inside
`try`; on success report the resolved path, on any failure catch it and
return a result flagging `isError` with the error's message. -/
def handleCreateService (args : CreateServiceArgs) (oracle : FsOracle) :
    ToolResult × List FsOp :=
  let r := runOps (createOps args) oracle
  match r.2 with
  | none =>
    (⟨"Successfully created Deno service at " ++ resolvePath args.path args.name, false⟩, r.1)
  | some msg => (⟨"Failed to create service: " ++ msg, true⟩, r.1)

/-- The `service` object of `handleGenerateRenderConfig`, lines 344-358:
fixed fields, region and plan from the `||` chains, `envVars` from
`args.envVars || {}`, and `id` appended only when `args.serviceId` is
truthy. -/
def serviceConfig (args : GenerateRenderConfigArgs) (cfg : RenderConfig) : JSValue :=
  .obj ([
    ("type", JSValue.str "web"),
    ("name", JSValue.str args.name),
    ("env", JSValue.str "deno"),
    ("region", JSValue.str (jsOrStr args.region (jsOrStr cfg.region "oregon"))),
    ("plan", JSValue.str (jsOrStr args.plan "free")),
    ("buildCommand", JSValue.null),
    ("startCommand", JSValue.str "deno run --allow-net main.ts"),
    ("envVars", args.envVars.getD (JSValue.obj []))] ++
    (match args.serviceId with
     | some s => if s = "" then [] else [("id", JSValue.str s)]
     | none => []))

/-- The `renderConfig` object written to disk, lines 360-362. -/
def renderConfigValue (args : GenerateRenderConfigArgs) (cfg : RenderConfig) : JSValue :=
  .obj [("services", .arr [serviceConfig args cfg])]

/-- The serialized descriptor file content, line 365. -/
def descriptorContent (args : GenerateRenderConfigArgs) (cfg : RenderConfig) : String :=
  stringifyJson (renderConfigValue args cfg)

/-- The filesystem operations of `handleGenerateRenderConfig`, lines
364-365: a single write of `render.yaml` under `args.path`, with no
directory creation. -/
def generateOps (args : GenerateRenderConfigArgs) (cfg : RenderConfig) : List FsOp :=
  [.writeFile (joinPath args.path "render.yaml") (descriptorContent args cfg)]

/-- The advisory line, lines 367-369: chosen by the truthiness of the
process-wide API key. -/
def configMessage (cfg : RenderConfig) : String :=
  if strTruthy cfg.apiKey then "Using global render.com configuration from MCP settings."
  else "Note: No global render.com API key found. You may need to configure this in your MCP settings."

/-- `handleGenerateRenderConfig`, lines 342-391: write the descriptor
inside `try`; on success report the path plus the advisory line, on
failure catch it and flag `isError` with the error's message. -/
def handleGenerateRenderConfig (args : GenerateRenderConfigArgs) (cfg : RenderConfig)
    (oracle : FsOracle) : ToolResult × List FsOp :=
  let r := runOps (generateOps args cfg) oracle
  match r.2 with
  | none =>
    (⟨"Generated render.yaml configuration at " ++ joinPath args.path "render.yaml" ++ "\n" ++
        configMessage cfg, false⟩, r.1)
  | some msg => (⟨"Failed to generate render config: " ++ msg, true⟩, r.1)

/-- The `CallToolRequestSchema` handler, lines 148-160: route by tool
name, validate (a validation error propagates as a protocol error and
performs no filesystem operation), then run the handler. -/
def callToolHandler (cfg : RenderConfig) (toolName : String) (raw : Option JSValue)
    (oracle : FsOracle) : Except McpError ToolResult × List FsOp :=
  if toolName = "create_deno_service" then
    match validateCreateServiceArgs raw with
    | .error e => (.error e, [])
    | .ok args =>
      let r := handleCreateService args oracle
      (.ok r.1, r.2)
  else if toolName = "generate_render_config" then
    match validateGenerateRenderConfigArgs raw with
    | .error e => (.error e, [])
    | .ok args =>
      let r := handleGenerateRenderConfig args cfg oracle
      (.ok r.1, r.2)
  else (.error ⟨.methodNotFound, "Unknown tool: " ++ toolName⟩, [])

/-- JSON whitespace characters. -/
def isWsChar (c : Char) : Bool := c = ' ' || c = '\n' || c = '\t' || c = '\r'

/-- Drop leading JSON whitespace. -/
def skipWs : List Char → List Char
  | [] => []
  | c :: rest => if isWsChar c then skipWs rest else c :: rest

/-- Value of one hexadecimal digit. -/
def hexVal (c : Char) : Option Nat :=
  if '0' ≤ c ∧ c ≤ '9' then some (c.toNat - 48)
  else if 'a' ≤ c ∧ c ≤ 'f' then some (c.toNat - 87)
  else if 'A' ≤ c ∧ c ≤ 'F' then some (c.toNat - 55)
  else none

/-- The character denoted by a single-letter JSON escape. -/
def escCharOf (c : Char) : Option Char :=
  if c = '"' then some '"'
  else if c = '\\' then some '\\'
  else if c = '/' then some '/'
  else if c = 'n' then some '\n'
  else if c = 'r' then some '\r'
  else if c = 't' then some '\t'
  else if c = 'b' then some '\x08'
  else if c = 'f' then some '\x0c'
  else none

/-- Parse the body of a JSON string literal after the opening quote, up to
and including the closing quote; returns the decoded characters and the
remaining input. -/
def parseStrAux : List Char → Option (List Char × List Char)
  | [] => none
  | c :: rest =>
    if c = '"' then some ([], rest)
    else if c = '\\' then
      match rest with
      | [] => none
      | e :: rest2 =>
        if e = 'u' then
          match rest2 with
          | h1 :: h2 :: h3 :: h4 :: rest3 =>
            (match hexVal h1, hexVal h2, hexVal h3, hexVal h4 with
             | some a, some b, some v3, some v4 =>
               (parseStrAux rest3).map
                 (fun p => (Char.ofNat (4096 * a + 256 * b + 16 * v3 + v4) :: p.1, p.2))
             | _, _, _, _ => none)
          | _ => none
        else
          (match escCharOf e with
           | some ch => (parseStrAux rest2).map (fun p => (ch :: p.1, p.2))
           | none => none)
    else (parseStrAux rest).map (fun p => (c :: p.1, p.2))

/-- Parse a run of decimal digits, folding them onto an accumulator. -/
def parseDigitsAcc : Nat → List Char → Nat × List Char
  | acc, [] => (acc, [])
  | acc, c :: rest =>
    if c.isDigit then parseDigitsAcc (acc * 10 + (c.toNat - 48)) rest else (acc, c :: rest)

/-- Parse an integer JSON number token (the only number shape this
program's serializer emits). -/
def parseIntTok : List Char → Option (JSValue × List Char)
  | [] => none
  | c :: rest =>
    if c = '-' then
      match rest with
      | [] => none
      | c2 :: _ =>
        if c2.isDigit then
          some (.num (Int.negOfNat (parseDigitsAcc 0 rest).1), (parseDigitsAcc 0 rest).2)
        else none
    else if c.isDigit then
      some (.num (Int.ofNat (parseDigitsAcc 0 (c :: rest)).1), (parseDigitsAcc 0 (c :: rest)).2)
    else none

/-- Whether a character list starts with the given character. -/
def headIs : List Char → Char → Bool
  | c :: _, c' => c = c'
  | [], _ => false

mutual

/-- Recursive-descent JSON value parser (`JSON.parse` on the fragment this
program emits), with fuel bounding the nesting recursion. -/
def parseVal : Nat → List Char → Option (JSValue × List Char)
  | 0, _ => none
  | fuel + 1, s =>
    match skipWs s with
    | [] => none
    | c :: rest =>
      if c = 'n' then
        match rest with
        | 'u' :: 'l' :: 'l' :: r => some (.null, r)
        | _ => none
      else if c = 't' then
        match rest with
        | 'r' :: 'u' :: 'e' :: r => some (.bool true, r)
        | _ => none
      else if c = 'f' then
        match rest with
        | 'a' :: 'l' :: 's' :: 'e' :: r => some (.bool false, r)
        | _ => none
      else if c = '"' then (parseStrAux rest).map (fun p => (.str (String.mk p.1), p.2))
      else if c = '[' then
        if headIs (skipWs rest) ']' then some (.arr [], (skipWs rest).tail)
        else (parseElems fuel (skipWs rest)).map (fun p => (.arr p.1, p.2))
      else if c = '\x7b' then
        if headIs (skipWs rest) '\x7d' then some (.obj [], (skipWs rest).tail)
        else (parseMembers fuel (skipWs rest)).map (fun p => (.obj p.1, p.2))
      else if c = '-' || c.isDigit then parseIntTok (c :: rest)
      else none

/-- Parse the elements of a non-empty array, up to and including the
closing bracket. -/
def parseElems : Nat → List Char → Option (List JSValue × List Char)
  | 0, _ => none
  | fuel + 1, s =>
    match parseVal fuel s with
    | none => none
    | some (v, rest) =>
      match skipWs rest with
      | ',' :: r => (parseElems fuel r).map (fun p => (v :: p.1, p.2))
      | ']' :: r => some ([v], r)
      | _ => none

/-- Parse the members of a non-empty object, up to and including the
closing brace. -/
def parseMembers : Nat → List Char → Option (List (String × JSValue) × List Char)
  | 0, _ => none
  | fuel + 1, s =>
    match skipWs s with
    | '"' :: rest =>
      (match parseStrAux rest with
       | none => none
       | some (key, rest2) =>
         match skipWs rest2 with
         | ':' :: rest3 =>
           (match parseVal fuel rest3 with
            | none => none
            | some (v, rest4) =>
              match skipWs rest4 with
              | ',' :: r => (parseMembers fuel r).map (fun p => ((String.mk key, v) :: p.1, p.2))
              | '\x7d' :: r => some ([(String.mk key, v)], r)
              | _ => none)
         | _ => none)
    | _ => none

end

mutual

/-- Fuel sufficient for `parseVal` to parse the rendering of a value. -/
def fuelOf : JSValue → Nat
  | .null => 1
  | .bool _ => 1
  | .num _ => 1
  | .str _ => 1
  | .arr [] => 1
  | .arr (x :: xs) => 1 + fuelOfElems x xs
  | .obj [] => 1
  | .obj ((_, v) :: kvs) => 1 + fuelOfMembers v kvs
termination_by v => sizeOf v

/-- Fuel sufficient for `parseElems` on rendered array elements. -/
def fuelOfElems (x : JSValue) : List JSValue → Nat
  | [] => 1 + fuelOf x
  | y :: ys => 1 + fuelOf x + fuelOfElems y ys
termination_by xs => sizeOf x + sizeOf xs

/-- Fuel sufficient for `parseMembers` on rendered object members. -/
def fuelOfMembers (v : JSValue) : List (String × JSValue) → Nat
  | [] => 1 + fuelOf v
  | (_, v') :: ms => 1 + fuelOf v + fuelOfMembers v' ms
termination_by ms => sizeOf v + sizeOf ms

end

/-- `JSON.parse` of a whole document: one value, with only trailing
whitespace allowed. -/
def parseJson (s : String) : Option JSValue :=
  match parseVal (s.length + 1) s.data with
  | some (v, rest) => if skipWs rest = [] then some v else none
  | none => none

/-- Whitespace-only character lists. -/
def wsOnly : List Char → Prop
  | [] => True
  | c :: rest => isWsChar c = true ∧ wsOnly rest

/-- No leading decimal digit (so a greedy number parse stops here). -/
def noDigitHead : List Char → Prop
  | [] => True
  | c :: _ => c.isDigit = false

/-- The text following the first rendered element of a non-empty array:
separators, further elements, and the closing bracket at outer depth `e`. -/
def elemsText (d e : Nat) (rest : List Char) : List JSValue → List Char
  | [] => '\n' :: (indentChars e ++ ']' :: rest)
  | y :: ys => ',' :: '\n' :: (indentChars d ++ (renderVal d y ++ elemsText d e rest ys))

/-- The text following the first rendered member of a non-empty object. -/
def membersText (d e : Nat) (rest : List Char) : List (String × JSValue) → List Char
  | [] => '\n' :: (indentChars e ++ '\x7d' :: rest)
  | (k, v) :: ms =>
    ',' :: '\n' ::
      (indentChars d ++ (quoteStr k ++ ':' :: ' ' :: (renderVal d v ++ membersText d e rest ms)))

/-- Oracle under which every filesystem operation succeeds. -/
def okOracle : FsOracle := fun _ => none

/-- Oracle under which the first attempted operation fails with message `boom`. -/
def boomOracle : FsOracle := fun _ => some "boom"

/-- Process configuration with neither environment variable set. -/
def cfgNone : RenderConfig := loadRenderConfig none none

/-- The shapes of raw arguments that claim C4 quantifies over: not an
object, or with no string-valued `name` or `path` property. -/
def badArgsShape (raw : Option JSValue) : Prop :=
  (∀ kvs, raw ≠ some (.obj kvs)) ∨
  (∃ kvs, raw = some (.obj kvs) ∧
    ((∀ s, lookupLast kvs "name" ≠ some (.str s)) ∨
     (∀ s, lookupLast kvs "path" ≠ some (.str s))))

theorem skipWs_append (w s : List Char) (h : wsOnly w) : skipWs (w ++ s) = skipWs s := by
  induction w with
  | nil => rfl
  | cons c rest ih =>
    obtain ⟨h1, h2⟩ := h
    simp [skipWs, h1, ih h2]

theorem skipWs_not_ws (c : Char) (s : List Char) (h : isWsChar c = false) :
    skipWs (c :: s) = c :: s := by simp [skipWs, h]

theorem wsOnly_indent (d : Nat) : wsOnly (indentChars d) := by
  induction d with
  | zero => trivial
  | succ d ih => exact ⟨by decide, by decide, ih⟩

theorem skipWs_indent (d : Nat) (s : List Char) :
    skipWs (indentChars d ++ s) = skipWs s := by
  have h := wsOnly_indent d
  induction d with
  | zero => rfl
  | succ d ih =>
    simp [indentChars, skipWs]
    exact ih (wsOnly_indent d)

theorem digitChar_isDigit (m : Nat) (h : m < 10) :
    (Char.ofNat (48 + m)).isDigit = true := by interval_cases m <;> decide

theorem digitChar_toNat (m : Nat) (h : m < 10) :
    (Char.ofNat (48 + m)).toNat = 48 + m := by interval_cases m <;> decide

theorem natDigits_head (n : Nat) : ∃ c t, natDigits n = c :: t ∧ c.isDigit = true := by
  induction n using Nat.strong_induction_on with
  | _ n ih =>
    rw [natDigits]
    by_cases h : n < 10
    · exact ⟨Char.ofNat (48 + n), [], by simp [h], digitChar_isDigit n h⟩
    · obtain ⟨c, t, he, hd⟩ := ih (n / 10) (Nat.div_lt_self (by omega) (by omega))
      exact ⟨c, t ++ [Char.ofNat (48 + n % 10)], by simp [h, he], hd⟩

theorem parseDigitsAcc_natDigits (n : Nat) : ∀ acc rest,
    parseDigitsAcc acc (natDigits n ++ rest) =
      parseDigitsAcc (acc * 10 ^ (natDigits n).length + n) rest := by
  induction n using Nat.strong_induction_on with
  | _ n ih =>
    intro acc rest
    rw [natDigits]
    by_cases h : n < 10
    · simp [h, parseDigitsAcc, digitChar_isDigit n h, digitChar_toNat n h]
    · simp only [h, dite_false, List.append_assoc, List.singleton_append, List.length_append,
        List.length_cons, List.length_nil]
      rw [ih (n / 10) (Nat.div_lt_self (by omega) (by omega))]
      have hd : (Char.ofNat (48 + n % 10)).isDigit = true :=
        digitChar_isDigit (n % 10) (Nat.mod_lt n (by omega))
      have ht : (Char.ofNat (48 + n % 10)).toNat = 48 + n % 10 :=
        digitChar_toNat (n % 10) (Nat.mod_lt n (by omega))
      simp [parseDigitsAcc, hd, ht]
      congr 1
      have key : (acc * 10 ^ (natDigits (n / 10)).length + n / 10) * 10 + n % 10 =
          acc * (10 ^ (natDigits (n / 10)).length * 10) + (n / 10 * 10 + n % 10) := by ring
      rw [key, Nat.div_add_mod', ← pow_succ]

theorem parseDigitsAcc_stop (n : Nat) (rest : List Char) (h : noDigitHead rest) :
    parseDigitsAcc n rest = (n, rest) := by
  cases rest with
  | nil => rfl
  | cons c r =>
    have h' : c.isDigit = false := h
    simp [parseDigitsAcc, h']

theorem parseDigits_natDigits (n : Nat) (rest : List Char) (h : noDigitHead rest) :
    parseDigitsAcc 0 (natDigits n ++ rest) = (n, rest) := by
  rw [parseDigitsAcc_natDigits]
  simp [parseDigitsAcc_stop _ _ h]

theorem isDigit_ne_char (c c' : Char) (h : c.isDigit = true) (h' : c'.isDigit = false) :
    c ≠ c' := by
  intro he
  subst he
  rw [h] at h'
  cases h'

theorem isDigit_not_ws (c : Char) (h : c.isDigit = true) : isWsChar c = false := by
  by_cases h1 : c = ' '
  · subst h1; exact absurd h (by decide)
  · by_cases h2 : c = '\n'
    · subst h2; exact absurd h (by decide)
    · by_cases h3 : c = '\t'
      · subst h3; exact absurd h (by decide)
      · by_cases h4 : c = '\r'
        · subst h4; exact absurd h (by decide)
        · simp [isWsChar, h1, h2, h3, h4]

theorem parseIntTok_renderInt (n : Int) (rest : List Char) (h : noDigitHead rest) :
    parseIntTok (renderInt n ++ rest) = some (.num n, rest) := by
  cases n with
  | ofNat m =>
    obtain ⟨c, t, he, hd⟩ := natDigits_head m
    have hne : c ≠ '-' := isDigit_ne_char c '-' hd (by decide)
    have hp := parseDigits_natDigits m rest h
    rw [he] at hp
    show parseIntTok (natDigits m ++ rest) = _
    rw [he]
    simp only [List.cons_append]
    simp [parseIntTok, hne, hd]
    rw [List.cons_append] at hp
    simp [hp]
  | negSucc m =>
    obtain ⟨c, t, he, hd⟩ := natDigits_head (m + 1)
    have hp := parseDigits_natDigits (m + 1) rest h
    rw [he] at hp
    show parseIntTok (('-' :: natDigits (m + 1)) ++ rest) = _
    rw [he]
    simp only [List.cons_append]
    simp [parseIntTok, hd]
    rw [List.cons_append] at hp
    simp [hp, Int.negOfNat]

theorem hexVal_hexDigitChar (m : Nat) (h : m < 16) : hexVal (hexDigitChar m) = some m := by
  interval_cases m <;> decide

theorem parseStrAux_escape (cs rest : List Char) :
    parseStrAux (escapeStr cs ++ '"' :: rest) = some (cs, rest) := by
  induction cs with
  | nil =>
    show parseStrAux ('"' :: rest) = some ([], rest)
    unfold parseStrAux
    simp +decide
  | cons c cs ih =>
    show parseStrAux ((escapeChar c ++ escapeStr cs) ++ '"' :: rest) = _
    by_cases h1 : c = '"'
    · subst h1
      have hesc : escapeChar '"' = ['\\', '"'] := rfl
      rw [hesc]
      simp only [List.cons_append, List.nil_append, List.append_assoc]
      unfold parseStrAux
      simp +decide [escCharOf, ih]
    · by_cases h2 : c = '\\'
      · subst h2
        have hesc : escapeChar '\\' = ['\\', '\\'] := rfl
        rw [hesc]
        simp only [List.cons_append, List.nil_append, List.append_assoc]
        unfold parseStrAux
        simp +decide [escCharOf, ih]
      · by_cases h3 : c = '\n'
        · subst h3
          have hesc : escapeChar '\n' = ['\\', 'n'] := rfl
          rw [hesc]
          simp only [List.cons_append, List.nil_append, List.append_assoc]
          unfold parseStrAux
          simp +decide [escCharOf, ih]
        · by_cases h4 : c = '\r'
          · subst h4
            have hesc : escapeChar '\r' = ['\\', 'r'] := rfl
            rw [hesc]
            simp only [List.cons_append, List.nil_append, List.append_assoc]
            unfold parseStrAux
            simp +decide [escCharOf, ih]
          · by_cases h5 : c = '\t'
            · subst h5
              have hesc : escapeChar '\t' = ['\\', 't'] := rfl
              rw [hesc]
              simp only [List.cons_append, List.nil_append, List.append_assoc]
              unfold parseStrAux
              simp +decide [escCharOf, ih]
            · by_cases h6 : c = '\x08'
              · subst h6
                have hesc : escapeChar '\x08' = ['\\', 'b'] := rfl
                rw [hesc]
                simp only [List.cons_append, List.nil_append, List.append_assoc]
                unfold parseStrAux
                simp +decide [escCharOf, ih]
              · by_cases h7 : c = '\x0c'
                · subst h7
                  have hesc : escapeChar '\x0c' = ['\\', 'f'] := rfl
                  rw [hesc]
                  simp only [List.cons_append, List.nil_append, List.append_assoc]
                  unfold parseStrAux
                  simp +decide [escCharOf, ih]
                · by_cases h8 : c.toNat < 32
                  · have hesc : escapeChar c = ['\\', 'u', '0', '0',
                        hexDigitChar (c.toNat / 16), hexDigitChar (c.toNat % 16)] := by
                      simp [escapeChar, h1, h2, h3, h4, h5, h6, h7, h8]
                    rw [hesc]
                    simp only [List.cons_append, List.nil_append, List.append_assoc]
                    have hv1 : hexVal (hexDigitChar (c.toNat / 16)) = some (c.toNat / 16) :=
                      hexVal_hexDigitChar _ (by omega)
                    have hv2 : hexVal (hexDigitChar (c.toNat % 16)) = some (c.toNat % 16) :=
                      hexVal_hexDigitChar _ (by omega)
                    have hkey : Char.ofNat (4096 * 0 + 256 * 0 + 16 * (c.toNat / 16) +
                        c.toNat % 16) = c := by
                      have h9 : 4096 * 0 + 256 * 0 + 16 * (c.toNat / 16) + c.toNat % 16 =
                          c.toNat := by omega
                      rw [h9, Char.ofNat_toNat]
                    have hkey2 : Char.ofNat (16 * (c.toNat / 16) + c.toNat % 16) = c := by
                      have h9 : 16 * (c.toNat / 16) + c.toNat % 16 = c.toNat := by omega
                      rw [h9, Char.ofNat_toNat]
                    have hz : hexVal '0' = some 0 := by decide
                    unfold parseStrAux
                    simp +decide [hz, hv1, hv2, ih, hkey, hkey2]
                  · have hesc : escapeChar c = [c] := by
                      simp [escapeChar, h1, h2, h3, h4, h5, h6, h7, h8]
                    rw [hesc]
                    simp only [List.cons_append, List.nil_append, List.append_assoc]
                    unfold parseStrAux
                    simp +decide [h1, h2, ih]

theorem string_mk_data (s : String) : String.mk s.data = s := rfl

theorem noDigitHead_elemsText (d e : Nat) (rest : List Char) (xs : List JSValue) :
    noDigitHead (elemsText d e rest xs) := by
  cases xs <;> simp +decide [elemsText, noDigitHead]

theorem noDigitHead_membersText (d e : Nat) (rest : List Char)
    (ms : List (String × JSValue)) : noDigitHead (membersText d e rest ms) := by
  match ms with
  | [] => simp +decide [membersText, noDigitHead]
  | (k, v) :: ms => simp +decide [membersText, noDigitHead]

theorem renderElems_expand (xs : List JSValue) : ∀ (x : JSValue) (d e : Nat) (rest : List Char),
    renderElems d x xs ++ ('\n' :: (indentChars e ++ ']' :: rest)) =
      indentChars d ++ (renderVal d x ++ elemsText d e rest xs) := by
  induction xs with
  | nil => intro x d e rest; simp [renderElems, elemsText]
  | cons y ys ih => intro x d e rest; simp [renderElems, elemsText, ih]

theorem renderMembers_expand (ms : List (String × JSValue)) :
    ∀ (k : String) (v : JSValue) (d e : Nat) (rest : List Char),
    renderMembers d k v ms ++ ('\n' :: (indentChars e ++ '\x7d' :: rest)) =
      indentChars d ++ (quoteStr k ++ ':' :: ' ' :: (renderVal d v ++ membersText d e rest ms)) := by
  induction ms with
  | nil => intro k v d e rest; simp [renderMembers, membersText]
  | cons m ms ih =>
    intro k v d e rest
    cases m with
    | mk k2 v2 => simp [renderMembers, membersText, ih]

theorem renderVal_arr_expand (d : Nat) (x : JSValue) (xs : List JSValue) (rest : List Char) :
    renderVal d (.arr (x :: xs)) ++ rest =
      '[' :: '\n' :: (indentChars (d + 1) ++ (renderVal (d + 1) x ++ elemsText (d + 1) d rest xs)) := by
  simp only [renderVal]
  simp only [List.cons_append, List.append_assoc, List.singleton_append]
  rw [renderElems_expand]
  simp

theorem renderVal_obj_expand (d : Nat) (k : String) (v : JSValue)
    (kvs : List (String × JSValue)) (rest : List Char) :
    renderVal d (.obj ((k, v) :: kvs)) ++ rest =
      '\x7b' :: '\n' ::
        (indentChars (d + 1) ++
          (quoteStr k ++ ':' :: ' ' :: (renderVal (d + 1) v ++ membersText (d + 1) d rest kvs))) := by
  simp only [renderVal]
  simp only [List.cons_append, List.append_assoc, List.singleton_append]
  rw [renderMembers_expand]
  simp

theorem renderVal_head (d : Nat) (v : JSValue) :
    ∃ c t, renderVal d v = c :: t ∧ isWsChar c = false ∧ c ≠ ']' ∧ c ≠ '\x7d' := by
  cases v with
  | null => exact ⟨'n', ['u', 'l', 'l'], by simp [renderVal], by decide, by decide, by decide⟩
  | bool b => cases b with
    | true => exact ⟨'t', ['r', 'u', 'e'], by simp [renderVal], by decide, by decide, by decide⟩
    | false =>
      exact ⟨'f', ['a', 'l', 's', 'e'], by simp [renderVal], by decide, by decide, by decide⟩
  | num n =>
    cases n with
    | ofNat m =>
      obtain ⟨c, t, he, hd⟩ := natDigits_head m
      refine ⟨c, t, ?_, isDigit_not_ws c hd, isDigit_ne_char c ']' hd (by decide),
        isDigit_ne_char c '\x7d' hd (by decide)⟩
      rw [show renderVal d (.num (Int.ofNat m)) = natDigits m by simp [renderVal, renderInt], he]
    | negSucc m =>
      exact ⟨'-', natDigits (m + 1), by simp [renderVal, renderInt], by decide, by decide,
        by decide⟩
  | str s =>
    exact ⟨'"', escapeStr s.data ++ ['"'], by simp [renderVal, quoteStr], by decide, by decide,
      by decide⟩
  | arr xs => cases xs with
    | nil => exact ⟨'[', [']'], by simp [renderVal], by decide, by decide, by decide⟩
    | cons x xs =>
      exact ⟨'[', '\n' :: (renderElems (d + 1) x xs ++ '\n' :: (indentChars d ++ [']'])),
        by simp [renderVal], by decide, by decide, by decide⟩
  | obj kvs => match kvs with
    | [] => exact ⟨'\x7b', ['\x7d'], by simp [renderVal], by decide, by decide, by decide⟩
    | (k, v) :: kvs =>
      exact ⟨'\x7b',
        '\n' :: (renderMembers (d + 1) k v kvs ++ '\n' :: (indentChars d ++ ['\x7d'])),
        by simp [renderVal], by decide, by decide, by decide⟩

theorem parseVal_ws (fuel : Nat) (w s : List Char) (hw : wsOnly w) :
    parseVal fuel (w ++ s) = parseVal fuel s := by
  cases fuel with
  | zero => rfl
  | succ f =>
    unfold parseVal
    rw [skipWs_append _ _ hw]

theorem skipWs_nl (s : List Char) : skipWs ('\n' :: s) = skipWs s := by
  simp +decide [skipWs]

theorem fuelOf_pos (v : JSValue) : 1 ≤ fuelOf v := by
  cases v with
  | null => simp [fuelOf]
  | bool b => simp [fuelOf]
  | num n => simp [fuelOf]
  | str s => simp [fuelOf]
  | arr xs => cases xs with
    | nil => simp [fuelOf]
    | cons x xs => simp [fuelOf]
  | obj kvs => match kvs with
    | [] => simp [fuelOf]
    | (k, v) :: kvs => simp [fuelOf]

theorem fuelOfElems_pos (x : JSValue) (xs : List JSValue) : 1 ≤ fuelOfElems x xs := by
  cases xs with
  | nil => simp [fuelOfElems]
  | cons y ys => simp [fuelOfElems]; omega

theorem fuelOfMembers_pos (v : JSValue) (ms : List (String × JSValue)) :
    1 ≤ fuelOfMembers v ms := by
  match ms with
  | [] => simp [fuelOfMembers]
  | (k, v2) :: ms => simp [fuelOfMembers]; omega

theorem parse_render_all (fuel : Nat) :
    (∀ v d rest, fuelOf v ≤ fuel → noDigitHead rest →
      parseVal fuel (renderVal d v ++ rest) = some (v, rest)) ∧
    (∀ x xs d e rest w, fuelOfElems x xs ≤ fuel → noDigitHead rest → wsOnly w →
      parseElems fuel (w ++ (renderVal d x ++ elemsText d e rest xs)) = some (x :: xs, rest)) ∧
    (∀ k v ms d e rest w, fuelOfMembers v ms ≤ fuel → noDigitHead rest → wsOnly w →
      parseMembers fuel
          (w ++ (quoteStr k ++ ':' :: ' ' :: (renderVal d v ++ membersText d e rest ms))) =
        some ((k, v) :: ms, rest)) := by
  induction fuel with
  | zero =>
    refine ⟨fun v d rest hf _ => absurd hf (by have := fuelOf_pos v; omega),
      fun x xs d e rest w hf _ _ => absurd hf (by have := fuelOfElems_pos x xs; omega),
      fun k v ms d e rest w hf _ _ => absurd hf (by have := fuelOfMembers_pos v ms; omega)⟩
  | succ f ih =>
    obtain ⟨ih1, ih2, ih3⟩ := ih
    refine ⟨?_, ?_, ?_⟩
    · intro v d rest hf hrest
      cases v with
      | null =>
        rw [show renderVal d JSValue.null = ['n', 'u', 'l', 'l'] by simp [renderVal]]
        unfold parseVal
        simp only [List.cons_append, List.nil_append]
        rw [skipWs_not_ws _ _ (by decide)]
        simp +decide
      | bool b =>
        cases b with
        | true =>
          rw [show renderVal d (JSValue.bool true) = ['t', 'r', 'u', 'e'] by simp [renderVal]]
          unfold parseVal
          simp only [List.cons_append, List.nil_append]
          rw [skipWs_not_ws _ _ (by decide)]
          simp +decide
        | false =>
          rw [show renderVal d (JSValue.bool false) = ['f', 'a', 'l', 's', 'e'] by
            simp [renderVal]]
          unfold parseVal
          simp only [List.cons_append, List.nil_append]
          rw [skipWs_not_ws _ _ (by decide)]
          simp +decide
      | num n =>
        have hmain : parseIntTok (renderInt n ++ rest) = some (.num n, rest) :=
          parseIntTok_renderInt n rest hrest
        cases n with
        | ofNat m =>
          obtain ⟨c, t, he, hd⟩ := natDigits_head m
          rw [show renderVal d (.num (Int.ofNat m)) = natDigits m by simp [renderVal, renderInt]]
          rw [show renderInt (Int.ofNat m) = natDigits m by simp [renderInt]] at hmain
          rw [he] at hmain ⊢
          unfold parseVal
          simp only [List.cons_append]
          rw [skipWs_not_ws _ _ (isDigit_not_ws c hd)]
          have hn : c ≠ 'n' := isDigit_ne_char c 'n' hd (by decide)
          have ht : c ≠ 't' := isDigit_ne_char c 't' hd (by decide)
          have hff : c ≠ 'f' := isDigit_ne_char c 'f' hd (by decide)
          have hq : c ≠ '"' := isDigit_ne_char c '"' hd (by decide)
          have hb : c ≠ '[' := isDigit_ne_char c '[' hd (by decide)
          have hbr : c ≠ '\x7b' := isDigit_ne_char c '\x7b' hd (by decide)
          simp only [List.cons_append] at hmain
          simp [hn, ht, hff, hq, hb, hbr, hd, hmain]
        | negSucc m =>
          rw [show renderVal d (.num (Int.negSucc m)) = '-' :: natDigits (m + 1) by
            simp [renderVal, renderInt]]
          rw [show renderInt (Int.negSucc m) = '-' :: natDigits (m + 1) by simp [renderInt]]
            at hmain
          unfold parseVal
          simp only [List.cons_append]
          rw [skipWs_not_ws _ _ (by decide)]
          simp only [List.cons_append] at hmain
          simp +decide [hmain]
      | str s =>
        rw [show renderVal d (.str s) = '"' :: (escapeStr s.data ++ ['"']) by
          simp [renderVal, quoteStr]]
        unfold parseVal
        simp only [List.cons_append, List.append_assoc, List.singleton_append]
        rw [skipWs_not_ws _ _ (by decide)]
        simp +decide [parseStrAux_escape, string_mk_data]
      | arr xs =>
        cases xs with
        | nil =>
          rw [show renderVal d (.arr []) = ['[', ']'] by simp [renderVal]]
          unfold parseVal
          simp only [List.cons_append, List.nil_append]
          rw [skipWs_not_ws _ _ (by decide)]
          have hs : skipWs (']' :: rest) = ']' :: rest := skipWs_not_ws _ _ (by decide)
          simp +decide [hs, headIs]
        | cons x xs =>
          rw [renderVal_arr_expand]
          unfold parseVal
          rw [skipWs_not_ws _ _ (by decide)]
          obtain ⟨c, t, hhead, hws, hbr1, hbr2⟩ := renderVal_head (d + 1) x
          have hskip : skipWs ('\n' :: (indentChars (d + 1) ++
              (renderVal (d + 1) x ++ elemsText (d + 1) d rest xs))) =
              renderVal (d + 1) x ++ elemsText (d + 1) d rest xs := by
            rw [skipWs_nl, skipWs_append _ _ (wsOnly_indent _), hhead]
            simp only [List.cons_append]
            exact skipWs_not_ws _ _ hws
          have hhd : headIs (renderVal (d + 1) x ++ elemsText (d + 1) d rest xs) ']' = false := by
            rw [hhead]; simp [headIs, hbr1]
          have hfe : fuelOfElems x xs ≤ f := by
            rw [show fuelOf (.arr (x :: xs)) = 1 + fuelOfElems x xs from by simp [fuelOf]] at hf
            omega
          have happ := ih2 x xs (d + 1) d rest [] hfe hrest trivial
          simp only [List.nil_append] at happ
          simp +decide [hskip, hhd, happ]
      | obj kvs =>
        match kvs with
        | [] =>
          rw [show renderVal d (.obj []) = ['\x7b', '\x7d'] by simp [renderVal]]
          unfold parseVal
          simp only [List.cons_append, List.nil_append]
          rw [skipWs_not_ws _ _ (by decide)]
          have hs : skipWs ('\x7d' :: rest) = '\x7d' :: rest := skipWs_not_ws _ _ (by decide)
          simp +decide [hs, headIs]
        | (k, v) :: kvs =>
          rw [renderVal_obj_expand]
          unfold parseVal
          rw [skipWs_not_ws _ _ (by decide)]
          have hskip : skipWs ('\n' :: (indentChars (d + 1) ++
              (quoteStr k ++ ':' :: ' ' :: (renderVal (d + 1) v ++ membersText (d + 1) d rest kvs)))) =
              quoteStr k ++ ':' :: ' ' :: (renderVal (d + 1) v ++ membersText (d + 1) d rest kvs) := by
            rw [skipWs_nl, skipWs_append _ _ (wsOnly_indent _)]
            rw [show quoteStr k ++ ':' :: ' ' ::
                (renderVal (d + 1) v ++ membersText (d + 1) d rest kvs) =
                '"' :: (escapeStr k.data ++ ['"'] ++ (':' :: ' ' ::
                  (renderVal (d + 1) v ++ membersText (d + 1) d rest kvs))) from by
              simp [quoteStr]]
            exact skipWs_not_ws _ _ (by decide)
          have hhd : headIs (quoteStr k ++ ':' :: ' ' ::
              (renderVal (d + 1) v ++ membersText (d + 1) d rest kvs)) '\x7d' = false := by
            rw [show quoteStr k ++ ':' :: ' ' ::
                (renderVal (d + 1) v ++ membersText (d + 1) d rest kvs) =
                '"' :: (escapeStr k.data ++ ['"'] ++ (':' :: ' ' ::
                  (renderVal (d + 1) v ++ membersText (d + 1) d rest kvs))) from by
              simp [quoteStr]]
            simp +decide [headIs]
          have hfm : fuelOfMembers v kvs ≤ f := by
            rw [show fuelOf (.obj ((k, v) :: kvs)) = 1 + fuelOfMembers v kvs from by
              simp [fuelOf]] at hf
            omega
          have happ := ih3 k v kvs (d + 1) d rest [] hfm hrest trivial
          simp only [List.nil_append] at happ
          simp +decide [hskip, hhd, happ]
    · intro x xs d e rest w hf hrest hw
      unfold parseElems
      rw [parseVal_ws f w _ hw]
      have h1 : fuelOf x ≤ f := by
        cases xs with
        | nil => simp [fuelOfElems] at hf; omega
        | cons y ys => simp [fuelOfElems] at hf; omega
      have happ := ih1 x d (elemsText d e rest xs) h1 (noDigitHead_elemsText d e rest xs)
      rw [happ]
      cases xs with
      | nil =>
        have hs : skipWs (elemsText d e rest []) = ']' :: rest := by
          simp only [elemsText]
          rw [skipWs_nl, skipWs_append _ _ (wsOnly_indent e)]
          exact skipWs_not_ws _ _ (by decide)
        simp [hs]
      | cons y ys =>
        simp only [elemsText]
        rw [skipWs_not_ws _ _ (by decide)]
        have h2 : fuelOfElems y ys ≤ f := by simp [fuelOfElems] at hf; omega
        have happ2 := ih2 y ys d e rest ('\n' :: indentChars d) h2 hrest
          ⟨by decide, wsOnly_indent d⟩
        simp only [List.cons_append] at happ2
        simp [happ2]
    · intro k v ms d e rest w hf hrest hw
      unfold parseMembers
      rw [skipWs_append _ _ hw]
      rw [show quoteStr k ++ ':' :: ' ' :: (renderVal d v ++ membersText d e rest ms) =
          '"' :: (escapeStr k.data ++ '"' ::
            (':' :: ' ' :: (renderVal d v ++ membersText d e rest ms))) from by simp [quoteStr]]
      rw [skipWs_not_ws _ _ (by decide)]
      have hkey := parseStrAux_escape k.data
        (':' :: ' ' :: (renderVal d v ++ membersText d e rest ms))
      have hs2 : skipWs (':' :: ' ' :: (renderVal d v ++ membersText d e rest ms)) =
          ':' :: ' ' :: (renderVal d v ++ membersText d e rest ms) :=
        skipWs_not_ws _ _ (by decide)
      have h1 : fuelOf v ≤ f := by
        match ms with
        | [] => simp [fuelOfMembers] at hf; omega
        | (k2, v2) :: ms2 => simp [fuelOfMembers] at hf; omega
      have hpv : parseVal f (' ' :: (renderVal d v ++ membersText d e rest ms)) =
          some (v, membersText d e rest ms) := by
        rw [show (' ' :: (renderVal d v ++ membersText d e rest ms)) =
            [' '] ++ (renderVal d v ++ membersText d e rest ms) from rfl]
        rw [parseVal_ws f [' '] _ ⟨by decide, trivial⟩]
        exact ih1 v d (membersText d e rest ms) h1 (noDigitHead_membersText d e rest ms)
      match ms with
      | [] =>
        have hs3 : skipWs (membersText d e rest []) = '\x7d' :: rest := by
          simp only [membersText]
          rw [skipWs_nl, skipWs_append _ _ (wsOnly_indent e)]
          exact skipWs_not_ws _ _ (by decide)
        simp [hkey, hs2, hpv, hs3, string_mk_data]
      | (k2, v2) :: ms2 =>
        have h2 : fuelOfMembers v2 ms2 ≤ f := by simp [fuelOfMembers] at hf; omega
        have happ2 := ih3 k2 v2 ms2 d e rest ('\n' :: indentChars d) h2 hrest
          ⟨by decide, wsOnly_indent d⟩
        simp only [List.cons_append] at happ2
        have hs4 : skipWs (membersText d e rest ((k2, v2) :: ms2)) =
            ',' :: '\n' :: (indentChars d ++ (quoteStr k2 ++ ':' :: ' ' ::
              (renderVal d v2 ++ membersText d e rest ms2))) := by
          simp only [membersText]
          exact skipWs_not_ws _ _ (by decide)
        simp [hkey, hs2, hpv, hs4, happ2, string_mk_data]

theorem natDigits_length_pos (m : Nat) : 1 ≤ (natDigits m).length := by
  obtain ⟨c, t, he, _⟩ := natDigits_head m
  rw [he]
  simp

mutual

theorem fuelOf_le_len (v : JSValue) (d : Nat) : fuelOf v ≤ (renderVal d v).length := by
  cases v with
  | null => simp [fuelOf, renderVal]
  | bool b => cases b <;> simp [fuelOf, renderVal]
  | num n =>
    cases n with
    | ofNat m =>
      have := natDigits_length_pos m
      simp only [fuelOf]
      rw [show renderVal d (.num (Int.ofNat m)) = natDigits m by simp [renderVal, renderInt]]
      omega
    | negSucc m =>
      have := natDigits_length_pos (m + 1)
      simp only [fuelOf]
      rw [show renderVal d (.num (Int.negSucc m)) = '-' :: natDigits (m + 1) by
        simp [renderVal, renderInt]]
      simp
  | str s => simp [fuelOf, renderVal, quoteStr]
  | arr xs =>
    cases xs with
    | nil => simp [fuelOf, renderVal]
    | cons x xs =>
      have hb := fuelOfElems_le_len x xs (d + 1)
      rw [show fuelOf (.arr (x :: xs)) = 1 + fuelOfElems x xs from by simp [fuelOf]]
      rw [show renderVal d (.arr (x :: xs)) =
        '[' :: '\n' :: (renderElems (d + 1) x xs ++ '\n' :: (indentChars d ++ [']'])) from by
        simp [renderVal]]
      simp only [List.length_cons, List.length_append]
      omega
  | obj kvs =>
    match kvs with
    | [] => simp [fuelOf, renderVal]
    | (k, v) :: kvs =>
      have hb := fuelOfMembers_le_len k v kvs (d + 1)
      rw [show fuelOf (.obj ((k, v) :: kvs)) = 1 + fuelOfMembers v kvs from by simp [fuelOf]]
      rw [show renderVal d (.obj ((k, v) :: kvs)) =
        '\x7b' :: '\n' :: (renderMembers (d + 1) k v kvs ++ '\n' ::
          (indentChars d ++ ['\x7d'])) from by simp [renderVal]]
      simp only [List.length_cons, List.length_append]
      omega
termination_by sizeOf v

theorem fuelOfElems_le_len (x : JSValue) (xs : List JSValue) (d : Nat) :
    fuelOfElems x xs ≤ (renderElems d x xs).length + 1 := by
  cases xs with
  | nil =>
    have ha := fuelOf_le_len x d
    rw [show fuelOfElems x [] = 1 + fuelOf x from by simp [fuelOfElems]]
    rw [show renderElems d x [] = indentChars d ++ renderVal d x from by simp [renderElems]]
    simp only [List.length_append]
    omega
  | cons y ys =>
    have ha := fuelOf_le_len x d
    have hb := fuelOfElems_le_len y ys d
    rw [show fuelOfElems x (y :: ys) = 1 + fuelOf x + fuelOfElems y ys from by
      simp [fuelOfElems]]
    rw [show renderElems d x (y :: ys) =
      indentChars d ++ (renderVal d x ++ ',' :: '\n' :: renderElems d y ys) from by
      simp [renderElems]]
    simp only [List.length_append, List.length_cons]
    omega
termination_by sizeOf x + sizeOf xs

theorem fuelOfMembers_le_len (k : String) (v : JSValue) (ms : List (String × JSValue))
    (d : Nat) : fuelOfMembers v ms ≤ (renderMembers d k v ms).length + 1 := by
  cases ms with
  | nil =>
    have ha := fuelOf_le_len v d
    rw [show fuelOfMembers v [] = 1 + fuelOf v from by simp [fuelOfMembers]]
    rw [show renderMembers d k v [] =
      indentChars d ++ (quoteStr k ++ ':' :: ' ' :: renderVal d v) from by simp [renderMembers]]
    simp only [List.length_append, List.length_cons]
    omega
  | cons m ms2 =>
    match m with
    | (k2, v2) =>
      have ha := fuelOf_le_len v d
      have hb := fuelOfMembers_le_len k2 v2 ms2 d
      rw [show fuelOfMembers v ((k2, v2) :: ms2) = 1 + fuelOf v + fuelOfMembers v2 ms2 from by
        simp [fuelOfMembers]]
      rw [show renderMembers d k v ((k2, v2) :: ms2) =
        indentChars d ++ (quoteStr k ++ ':' :: ' ' ::
          (renderVal d v ++ ',' :: '\n' :: renderMembers d k2 v2 ms2)) from by
        simp [renderMembers]]
      simp only [List.length_append, List.length_cons]
      omega
termination_by sizeOf v + sizeOf ms

end

/-- Serialize-then-parse is the identity: `JSON.parse` recovers exactly the
structured value that `JSON.stringify(v, null, 2)` wrote. -/
theorem parseJson_stringifyJson (v : JSValue) : parseJson (stringifyJson v) = some v := by
  have hfl : fuelOf v ≤ (renderVal 0 v).length + 1 := by
    have := fuelOf_le_len v 0
    omega
  have hmain := (parse_render_all ((renderVal 0 v).length + 1)).1 v 0 [] hfl trivial
  simp only [List.append_nil] at hmain
  unfold parseJson stringifyJson
  rw [show (String.mk (renderVal 0 v)).length = (renderVal 0 v).length from rfl]
  rw [show (String.mk (renderVal 0 v)).data = renderVal 0 v from rfl]
  rw [hmain]
  simp [skipWs]

theorem jsOrStr_oregon_ne_empty (r : Option String) : jsOrStr r "oregon" ≠ "" := by
  cases r with
  | none => simp [jsOrStr]
  | some s =>
    by_cases h : s = "" <;> simp [jsOrStr, h]

theorem loadRegion_collapse (r : Option String) :
    jsOrStr (some (jsOrStr r "oregon")) "oregon" = jsOrStr r "oregon" := by
  have h := jsOrStr_oregon_ne_empty r
  show (if jsOrStr r "oregon" = "" then "oregon" else jsOrStr r "oregon") = jsOrStr r "oregon"
  rw [if_neg h]

theorem serviceConfig_fields (args : GenerateRenderConfigArgs) (cfg : RenderConfig) :
    getField (serviceConfig args cfg) "type" = some (.str "web") ∧
    getField (serviceConfig args cfg) "name" = some (.str args.name) ∧
    getField (serviceConfig args cfg) "env" = some (.str "deno") ∧
    getField (serviceConfig args cfg) "region" =
      some (.str (jsOrStr args.region (jsOrStr cfg.region "oregon"))) ∧
    getField (serviceConfig args cfg) "plan" = some (.str (jsOrStr args.plan "free")) ∧
    getField (serviceConfig args cfg) "buildCommand" = some .null ∧
    getField (serviceConfig args cfg) "startCommand" =
      some (.str "deno run --allow-net main.ts") ∧
    getField (serviceConfig args cfg) "envVars" = some (args.envVars.getD (.obj [])) ∧
    getField (serviceConfig args cfg) "id" =
      (match args.serviceId with
       | some s => if s = "" then none else some (.str s)
       | none => none) := by
  cases hsid : args.serviceId with
  | none =>
    refine ⟨?_, ?_, ?_, ?_, ?_, ?_, ?_, ?_, ?_⟩ <;>
      simp +decide [serviceConfig, getField, lookupLast, hsid]
  | some s =>
    by_cases h : s = "" <;>
      (refine ⟨?_, ?_, ?_, ?_, ?_, ?_, ?_, ?_, ?_⟩ <;>
        simp +decide [serviceConfig, getField, lookupLast, hsid, h])

theorem validateCreate_error_code (raw : Option JSValue) (e : McpError)
    (h : validateCreateServiceArgs raw = .error e) : e.code = .invalidParams := by
  unfold validateCreateServiceArgs at h
  split at h
  · split at h
    · split at h
      · cases h
      · cases h; rfl
    · cases h; rfl
  · cases h; rfl

theorem optStringField_error_code (raw : Option JSValue) (k msg : String) (e : McpError)
    (h : optStringField raw k msg = .error e) : e.code = .invalidParams := by
  unfold optStringField at h
  split at h
  · cases h
  · cases h
  · cases h; rfl

theorem validateGenerate_error_code (raw : Option JSValue) (e : McpError)
    (h : validateGenerateRenderConfigArgs raw = .error e) : e.code = .invalidParams := by
  unfold validateGenerateRenderConfigArgs at h
  split at h
  · split at h
    · split at h
      · split at h
        · rename_i e2 he2
          split at he2
          · cases he2
          · split at he2
            · cases he2
            · cases he2
              cases h
              rfl
        · rename_i envVars he2
          split at h
          · cases h
            exact optStringField_error_code _ _ _ _ (by assumption)
          · split at h
            · cases h
              exact optStringField_error_code _ _ _ _ (by assumption)
            · split at h
              · cases h
                exact optStringField_error_code _ _ _ _ (by assumption)
              · cases h
      · cases h; rfl
    · cases h; rfl
  · cases h; rfl

theorem validateCreate_bad (raw : Option JSValue) (hbad : badArgsShape raw) :
    ∃ e, validateCreateServiceArgs raw = .error e ∧ e.code = .invalidParams := by
  cases hv : validateCreateServiceArgs raw with
  | error e => exact ⟨e, rfl, validateCreate_error_code _ _ hv⟩
  | ok args =>
    exfalso
    unfold validateCreateServiceArgs at hv
    split at hv
    · rename_i hok
      split at hv
      · rename_i name hname
        split at hv
        · rename_i path hpath
          rcases hbad with hA | ⟨kvs, hkv, hB⟩
          · cases raw with
            | none => simp [argsObjectOk] at hok
            | some v =>
              cases v with
              | obj kvs => exact hA kvs rfl
              | arr l => simp [getFieldOpt, getField] at hname
              | null => simp [argsObjectOk, jsTypeofObject, isNullJS] at hok
              | bool b => simp [argsObjectOk, jsTypeofObject] at hok
              | num n => simp [argsObjectOk, jsTypeofObject] at hok
              | str s => simp [argsObjectOk, jsTypeofObject] at hok
          · subst hkv
            rcases hB with hB | hB
            · exact hB name (by simpa [getFieldOpt, getField] using hname)
            · exact hB path (by simpa [getFieldOpt, getField] using hpath)
        · cases hv
      · cases hv
    · cases hv

theorem validateGenerate_bad (raw : Option JSValue) (hbad : badArgsShape raw) :
    ∃ e, validateGenerateRenderConfigArgs raw = .error e ∧ e.code = .invalidParams := by
  cases hv : validateGenerateRenderConfigArgs raw with
  | error e => exact ⟨e, rfl, validateGenerate_error_code _ _ hv⟩
  | ok args =>
    exfalso
    unfold validateGenerateRenderConfigArgs at hv
    split at hv
    · rename_i hok
      split at hv
      · rename_i name hname
        split at hv
        · rename_i path hpath
          have hcontra : False := by
            rcases hbad with hA | ⟨kvs, hkv, hB⟩
            · cases raw with
              | none => simp [argsObjectOk] at hok
              | some v =>
                cases v with
                | obj kvs => exact hA kvs rfl
                | arr l => simp [getFieldOpt, getField] at hname
                | null => simp [argsObjectOk, jsTypeofObject, isNullJS] at hok
                | bool b => simp [argsObjectOk, jsTypeofObject] at hok
                | num n => simp [argsObjectOk, jsTypeofObject] at hok
                | str s => simp [argsObjectOk, jsTypeofObject] at hok
            · subst hkv
              rcases hB with hB | hB
              · exact hB name (by simpa [getFieldOpt, getField] using hname)
              · exact hB path (by simpa [getFieldOpt, getField] using hpath)
          exact hcontra
        · cases hv
      · cases hv
    · cases hv

theorem runOps_ok (ops : List FsOp) (oracle : FsOracle) (h : ∀ op, oracle op = none) :
    runOps ops oracle = (ops, none) := by
  induction ops with
  | nil => rfl
  | cons op rest ih => simp [runOps, h op, ih]

/-- C1: lenient coercion holds only for `create_deno_service`: its
wrong-typed optional `port`/`description` are dropped to `undefined` and
the port default applies later; for `generate_render_config` every
wrong-typed optional field (`envVars`, `serviceId`, `region`, `plan`)
fails validation with `InvalidParams`. -/
theorem c1_theorem :
    (∀ (name path : String) (pv dv : JSValue),
      (∀ n : Int, pv ≠ .num n) → (∀ s : String, dv ≠ .str s) →
      validateCreateServiceArgs (some (.obj [("name", .str name), ("path", .str path),
        ("port", pv), ("description", dv)])) = .ok ⟨name, path, none, none⟩) ∧
    (portValue none = 8000) ∧
    (∀ (name path : String) (v : JSValue),
      jsTypeofObject v = false ∨ v = .null →
      validateGenerateRenderConfigArgs (some (.obj [("name", .str name), ("path", .str path),
        ("envVars", v)])) = .error ⟨.invalidParams, "envVars must be an object if provided"⟩) ∧
    (∀ (name path : String) (v : JSValue), (∀ s : String, v ≠ .str s) →
      validateGenerateRenderConfigArgs (some (.obj [("name", .str name), ("path", .str path),
        ("serviceId", v)])) =
        .error ⟨.invalidParams, "serviceId must be a string if provided"⟩) ∧
    (∀ (name path : String) (v : JSValue), (∀ s : String, v ≠ .str s) →
      validateGenerateRenderConfigArgs (some (.obj [("name", .str name), ("path", .str path),
        ("region", v)])) = .error ⟨.invalidParams, "region must be a string if provided"⟩) ∧
    (∀ (name path : String) (v : JSValue), (∀ s : String, v ≠ .str s) →
      validateGenerateRenderConfigArgs (some (.obj [("name", .str name), ("path", .str path),
        ("plan", v)])) = .error ⟨.invalidParams, "plan must be a string if provided"⟩) := by
  refine ⟨?_, rfl, ?_, ?_, ?_, ?_⟩
  · intro name path pv dv hpv hdv
    cases pv <;> cases dv <;>
      first
        | exact absurd rfl (hpv _)
        | exact absurd rfl (hdv _)
        | rfl
  · intro name path v hv
    rcases hv with hv | hv
    · cases v with
      | null => simp [jsTypeofObject] at hv
      | bool b => rfl
      | num n => rfl
      | str s => rfl
      | arr l => simp [jsTypeofObject] at hv
      | obj kvs => simp [jsTypeofObject] at hv
    · subst hv; rfl
  · intro name path v hv
    cases v with
    | str s => exact absurd rfl (hv s)
    | null => rfl
    | bool b => rfl
    | num n => rfl
    | arr l => rfl
    | obj kvs => rfl
  · intro name path v hv
    cases v with
    | str s => exact absurd rfl (hv s)
    | null => rfl
    | bool b => rfl
    | num n => rfl
    | arr l => rfl
    | obj kvs => rfl
  · intro name path v hv
    cases v with
    | str s => exact absurd rfl (hv s)
    | null => rfl
    | bool b => rfl
    | num n => rfl
    | arr l => rfl
    | obj kvs => rfl

/-- C1 counterexample: a `generate_render_config` invocation whose
optional `envVars` has the wrong primitive type is rejected with
`InvalidParams`, not treated as absent. -/
theorem c1_counterexample :
    validateGenerateRenderConfigArgs (some (.obj [("name", .str "svc"), ("path", .str "/tmp"),
      ("envVars", .num 5)])) =
      .error ⟨.invalidParams, "envVars must be an object if provided"⟩ := rfl

/-- C1 witness: concrete instances of the amended claim. -/
theorem c1_witness :
    validateCreateServiceArgs (some (.obj [("name", .str "svc"), ("path", .str "/tmp"),
      ("port", .str "80"), ("description", .num 3)])) = .ok ⟨"svc", "/tmp", none, none⟩ ∧
    validateGenerateRenderConfigArgs (some (.obj [("name", .str "svc"), ("path", .str "/tmp"),
      ("region", .num 1)])) = .error ⟨.invalidParams, "region must be a string if provided"⟩ :=
  ⟨c1_theorem.1 "svc" "/tmp" (.str "80") (.num 3) (fun _ h => JSValue.noConfusion h)
    (fun _ h => JSValue.noConfusion h),
   c1_theorem.2.2.2.2.1 "svc" "/tmp" (.num 1) (fun _ h => JSValue.noConfusion h)⟩

/-- C2 (amended): the emitted region is the explicit argument when
non-empty, else the environment region when set non-empty, else "oregon";
the plan is the explicit argument when non-empty, else "free" — JavaScript
`||` semantics, under which a supplied empty string falls through. -/
theorem c2_theorem (args : GenerateRenderConfigArgs) (apiKeyEnv regionEnv : Option String) :
    getField (serviceConfig args (loadRenderConfig apiKeyEnv regionEnv)) "region" =
      some (.str (jsOrStr args.region (jsOrStr regionEnv "oregon"))) ∧
    getField (serviceConfig args (loadRenderConfig apiKeyEnv regionEnv)) "plan" =
      some (.str (jsOrStr args.plan "free")) := by
  obtain ⟨-, -, -, hr, hp, -, -, -, -⟩ :=
    serviceConfig_fields args (loadRenderConfig apiKeyEnv regionEnv)
  refine ⟨?_, hp⟩
  rw [hr]
  rw [show (loadRenderConfig apiKeyEnv regionEnv).region = some (jsOrStr regionEnv "oregon")
    from rfl]
  rw [loadRegion_collapse]

/-- C2 counterexample: a validated invocation that supplies `region` and
`plan` as (empty) strings does not get them into the descriptor — the
process default and the literal default win instead. -/
theorem c2_counterexample :
    validateGenerateRenderConfigArgs (some (.obj [("name", .str "svc"), ("path", .str "/tmp"),
      ("region", .str ""), ("plan", .str "")])) =
      .ok ⟨"svc", "/tmp", none, none, some "", some ""⟩ ∧
    getField (serviceConfig ⟨"svc", "/tmp", none, none, some "", some ""⟩
      (loadRenderConfig none (some "frankfurt"))) "region" = some (.str "frankfurt") ∧
    ("frankfurt" : String) ≠ "" ∧
    getField (serviceConfig ⟨"svc", "/tmp", none, none, some "", some ""⟩
      (loadRenderConfig none (some "frankfurt"))) "plan" = some (.str "free") ∧
    ("free" : String) ≠ "" :=
  ⟨rfl, rfl, by decide, rfl, by decide⟩

/-- C3 (amended): the descriptor file is the JSON serialization of
`{services:[service]}` with the fixed fields as specified, and the `id`
field is present exactly when a non-empty (truthy) `serviceId` was
supplied. -/
theorem c3_theorem (args : GenerateRenderConfigArgs) (cfg : RenderConfig) :
    generateOps args cfg = [.writeFile (joinPath args.path "render.yaml")
      (stringifyJson (.obj [("services", .arr [serviceConfig args cfg])]))] ∧
    getField (serviceConfig args cfg) "type" = some (.str "web") ∧
    getField (serviceConfig args cfg) "name" = some (.str args.name) ∧
    getField (serviceConfig args cfg) "env" = some (.str "deno") ∧
    getField (serviceConfig args cfg) "buildCommand" = some .null ∧
    getField (serviceConfig args cfg) "startCommand" =
      some (.str "deno run --allow-net main.ts") ∧
    getField (serviceConfig args cfg) "envVars" = some (args.envVars.getD (.obj [])) ∧
    ((∃ v, getField (serviceConfig args cfg) "id" = some v) ↔ strTruthy args.serviceId = true) ∧
    (∀ s, args.serviceId = some s → s ≠ "" →
      getField (serviceConfig args cfg) "id" = some (.str s)) := by
  obtain ⟨h1, h2, h3, -, -, h6, h7, h8, h9⟩ := serviceConfig_fields args cfg
  refine ⟨rfl, h1, h2, h3, h6, h7, h8, ?_, ?_⟩
  · rw [h9]
    cases hs : args.serviceId with
    | none => simp [strTruthy]
    | some s => by_cases he : s = "" <;> simp [strTruthy, he]
  · intro s hs hne
    rw [h9, hs]
    simp [hne]

/-- C3 counterexample: `serviceId` supplied as the empty string is a
validated invocation with `serviceId` present, yet the descriptor carries
no `id` field (JavaScript truthiness drops it). -/
theorem c3_counterexample :
    validateGenerateRenderConfigArgs (some (.obj [("name", .str "svc"), ("path", .str "/tmp"),
      ("serviceId", .str "")])) = .ok ⟨"svc", "/tmp", none, some "", none, none⟩ ∧
    getField (serviceConfig ⟨"svc", "/tmp", none, some "", none, none⟩ cfgNone) "id" = none :=
  ⟨rfl, rfl⟩

/-- C3 witness: a non-empty `serviceId` is included as `id`. -/
theorem c3_witness :
    getField (serviceConfig ⟨"svc", "/tmp", none, some "srv-123", none, none⟩ cfgNone) "id" =
      some (.str "srv-123") :=
  ( c3_theorem ⟨"svc", "/tmp", none, some "srv-123", none, none⟩ cfgNone).2.2.2.2.2.2.2.2
    "srv-123" rfl (by decide)

/-- C4: for either operation, raw arguments that are not an object or
lack a string `name` or `path` are rejected with `InvalidParams` as a
protocol error, and no filesystem operation is attempted. -/
theorem c4_theorem (cfg : RenderConfig) (oracle : FsOracle) (raw : Option JSValue)
    (toolName : String)
    (htool : toolName = "create_deno_service" ∨ toolName = "generate_render_config")
    (hbad : badArgsShape raw) :
    ∃ e, callToolHandler cfg toolName raw oracle = (.error e, []) ∧ e.code = .invalidParams := by
  rcases htool with h | h <;> subst h
  · obtain ⟨e, he, hc⟩ := validateCreate_bad raw hbad
    exact ⟨e, by simp [callToolHandler, he], hc⟩
  · obtain ⟨e, he, hc⟩ := validateGenerate_bad raw hbad
    exact ⟨e, by simp +decide [callToolHandler, he], hc⟩

/-- C4 witness: absent arguments are rejected with no write attempted. -/
theorem c4_witness :
    ∃ e, callToolHandler cfgNone "create_deno_service" none okOracle = (.error e, []) ∧
      e.code = .invalidParams :=
  c4_theorem cfgNone okOracle none "create_deno_service" (Or.inl rfl)
    (Or.inl fun _ h => Option.noConfusion h)

/-- C5: every protocol-level error raised by the dispatcher is a
validation (`InvalidParams`) or routing (`MethodNotFound`) error, while a
runtime filesystem failure inside either handler is caught and turned
into an ordinary result carrying `isError := true` whose text contains
the underlying error message. -/
theorem c5_theorem :
    (∀ (cfg : RenderConfig) (toolName : String) (raw : Option JSValue) (oracle : FsOracle)
      (e : McpError) (t : List FsOp),
      callToolHandler cfg toolName raw oracle = (.error e, t) →
      e.code = .invalidParams ∨ e.code = .methodNotFound) ∧
    (∀ (args : CreateServiceArgs) (oracle : FsOracle) (msg : String),
      (runOps (createOps args) oracle).2 = some msg →
      (handleCreateService args oracle).1.isError = true ∧
      ∃ pre, (handleCreateService args oracle).1.text = pre ++ msg) ∧
    (∀ (args : GenerateRenderConfigArgs) (cfg : RenderConfig) (oracle : FsOracle) (msg : String),
      (runOps (generateOps args cfg) oracle).2 = some msg →
      (handleGenerateRenderConfig args cfg oracle).1.isError = true ∧
      ∃ pre, (handleGenerateRenderConfig args cfg oracle).1.text = pre ++ msg) := by
  refine ⟨?_, ?_, ?_⟩
  · intro cfg toolName raw oracle e t h
    unfold callToolHandler at h
    split at h
    · split at h
      · rename_i e2 he2
        rw [Prod.mk.injEq] at h
        obtain ⟨h1, -⟩ := h
        cases h1
        exact Or.inl (validateCreate_error_code _ _ he2)
      · rw [Prod.mk.injEq] at h
        obtain ⟨h1, -⟩ := h
        cases h1
    · split at h
      · split at h
        · rename_i e2 he2
          rw [Prod.mk.injEq] at h
          obtain ⟨h1, -⟩ := h
          cases h1
          exact Or.inl (validateGenerate_error_code _ _ he2)
        · rw [Prod.mk.injEq] at h
          obtain ⟨h1, -⟩ := h
          cases h1
      · rw [Prod.mk.injEq] at h
        obtain ⟨h1, -⟩ := h
        cases h1
        exact Or.inr rfl
  · intro args oracle msg h
    refine ⟨by simp [handleCreateService, h], "Failed to create service: ", by
      simp [handleCreateService, h]⟩
  · intro args cfg oracle msg h
    refine ⟨by simp [handleGenerateRenderConfig, h], "Failed to generate render config: ", by
      simp [handleGenerateRenderConfig, h]⟩

/-- C5 witness: a failing write is reported through the flagged result. -/
theorem c5_witness :
    (handleCreateService ⟨"svc", "/tmp", none, none⟩ boomOracle).1.isError = true ∧
    ∃ pre, (handleCreateService ⟨"svc", "/tmp", none, none⟩ boomOracle).1.text = pre ++ "boom" :=
  c5_theorem.2.1 ⟨"svc", "/tmp", none, none⟩ boomOracle "boom" rfl

/-- C6 (amended): `create_deno_service` first creates the target
directory recursively and then writes its three files beneath it, but
`generate_render_config` writes the descriptor file directly with no
prior directory creation. -/
theorem c6_theorem (cargs : CreateServiceArgs) (gargs : GenerateRenderConfigArgs)
    (cfg : RenderConfig) :
    createOps cargs = [.mkdirRecursive (resolvePath cargs.path cargs.name),
      .writeFile (joinPath (resolvePath cargs.path cargs.name) "main.ts") (mainContent cargs),
      .writeFile (joinPath (resolvePath cargs.path cargs.name) "deno.json")
        (stringifyJson denoConfig),
      .writeFile (joinPath (resolvePath cargs.path cargs.name) "README.md")
        (readmeContent cargs)] ∧
    (createOps cargs).head? = some (.mkdirRecursive (resolvePath cargs.path cargs.name)) ∧
    generateOps gargs cfg =
      [.writeFile (joinPath gargs.path "render.yaml") (descriptorContent gargs cfg)] ∧
    (generateOps gargs cfg).any isMkdirOp = false := by
  refine ⟨rfl, rfl, rfl, ?_⟩
  simp [generateOps, isMkdirOp]

/-- C6 counterexample: a concrete `generate_render_config` run performs
exactly one filesystem operation — the descriptor write — and no
directory creation precedes it. -/
theorem c6_counterexample :
    generateOps ⟨"svc", "/tmp/svc", none, none, none, none⟩ cfgNone =
      [.writeFile "/tmp/svc/render.yaml"
        (descriptorContent ⟨"svc", "/tmp/svc", none, none, none, none⟩ cfgNone)] ∧
    (generateOps ⟨"svc", "/tmp/svc", none, none, none, none⟩ cfgNone).any isMkdirOp = false :=
  ⟨rfl, rfl⟩

/-- C7: validation accepts `region` and `plan` values outside their
advertised enumerations — the concrete out-of-enumeration invocation
passes validation and the bogus values flow into the descriptor,
contradicting the declared schema (`enum: [...]`) and the TypeScript
union type the validator casts to. -/
theorem c7_theorem :
    validateGenerateRenderConfigArgs (some (.obj [("name", .str "svc"), ("path", .str "/tmp"),
      ("region", .str "mars"), ("plan", .str "premium")])) =
      .ok ⟨"svc", "/tmp", none, none, some "mars", some "premium"⟩ ∧
    ("mars" : String) ∉ (["oregon", "ohio", "frankfurt", "singapore"] : List String) ∧
    ("premium" : String) ∉ (["free", "individual", "team", "business"] : List String) ∧
    getField (serviceConfig ⟨"svc", "/tmp", none, none, some "mars", some "premium"⟩ cfgNone)
      "region" = some (.str "mars") ∧
    getField (serviceConfig ⟨"svc", "/tmp", none, none, some "mars", some "premium"⟩ cfgNone)
      "plan" = some (.str "premium") :=
  ⟨rfl, by decide, by decide, rfl, rfl⟩

/-- C8 (amended): the entrypoint is the fixed program text with the
interpolated port equal to `args.port || 8000`: the supplied port when
non-zero, 8000 when absent or zero; the scenario with port 9000 succeeds
with the resolved path in the message. -/
theorem c8_theorem (args : CreateServiceArgs) :
    mainContent args = mainPrefix ++ toString (portValue args.port) ++ mainSuffix ∧
    portValue none = 8000 ∧
    (∀ p : Int, p ≠ 0 → portValue (some p) = p) ∧
    portValue (some 0) = 8000 ∧
    (handleCreateService ⟨"svc", "/tmp", some 9000, none⟩ okOracle).1.text =
      "Successfully created Deno service at /tmp/svc" ∧
    mainContent ⟨"svc", "/tmp", some 9000, none⟩ = mainPrefix ++ "9000" ++ mainSuffix := by
  refine ⟨rfl, rfl, ?_, rfl, ?_, rfl⟩
  · intro p hp
    simp [portValue, hp]
  · have hr := runOps_ok (createOps ⟨"svc", "/tmp", some 9000, none⟩) okOracle (fun _ => rfl)
    simp [handleCreateService, hr]
    rfl

/-- C8 counterexample: port 0 is supplied and validated, yet the
generated entrypoint binds the default 8000, not 0. -/
theorem c8_counterexample :
    validateCreateServiceArgs (some (.obj [("name", .str "svc"), ("path", .str "/tmp"),
      ("port", .num 0)])) = .ok ⟨"svc", "/tmp", some 0, none⟩ ∧
    portValue (some 0) = 8000 ∧
    (8000 : Int) ≠ 0 ∧
    mainContent ⟨"svc", "/tmp", some 0, none⟩ = mainContent ⟨"svc", "/tmp", none, none⟩ :=
  ⟨rfl, rfl, by decide, rfl⟩

/-- C8 witness: a non-zero supplied port is interpolated as given. -/
theorem c8_witness : portValue (some 7) = 7 :=
  ( c8_theorem ⟨"svc", "/tmp", some 7, none⟩).2.2.1 7 (by decide)

/-- C9: parsing the written manifest and descriptor files back as JSON
recovers exactly the serialized objects, for every argument value. -/
theorem c9_theorem (args : GenerateRenderConfigArgs) (cfg : RenderConfig) :
    parseJson (stringifyJson denoConfig) = some denoConfig ∧
    parseJson (descriptorContent args cfg) = some (renderConfigValue args cfg) :=
  ⟨parseJson_stringifyJson denoConfig, parseJson_stringifyJson (renderConfigValue args cfg)⟩

theorem handleGen_congr (args : GenerateRenderConfigArgs) (cfg1 cfg2 : RenderConfig)
    (oracle : FsOracle) (hr : cfg1.region = cfg2.region)
    (hk : strTruthy cfg1.apiKey = strTruthy cfg2.apiKey) :
    handleGenerateRenderConfig args cfg1 oracle = handleGenerateRenderConfig args cfg2 oracle := by
  unfold handleGenerateRenderConfig generateOps descriptorContent renderConfigValue
    serviceConfig configMessage
  rw [hr, hk]

/-- C10 (amended): outputs depend on the API key only through its
truthiness (present and non-empty): any two keys of equal truthiness give
identical dispatcher results; the filesystem operations never depend on
the key at all; and on success the key only selects the advisory line
appended after the path line. -/
theorem c10_theorem (a1 a2 regionEnv : Option String) (toolName : String)
    (raw : Option JSValue) (oracle : FsOracle) (args : GenerateRenderConfigArgs) :
    (strTruthy a1 = strTruthy a2 →
      callToolHandler (loadRenderConfig a1 regionEnv) toolName raw oracle =
        callToolHandler (loadRenderConfig a2 regionEnv) toolName raw oracle) ∧
    (handleGenerateRenderConfig args (loadRenderConfig a1 regionEnv) oracle).2 =
      (handleGenerateRenderConfig args (loadRenderConfig a2 regionEnv) oracle).2 ∧
    ((∀ op, oracle op = none) →
      (handleGenerateRenderConfig args (loadRenderConfig a1 regionEnv) oracle).1.text =
        "Generated render.yaml configuration at " ++ joinPath args.path "render.yaml" ++ "\n" ++
          configMessage (loadRenderConfig a1 regionEnv)) := by
  refine ⟨?_, ?_, ?_⟩
  · intro hpres
    have hcongr : ∀ args2 : GenerateRenderConfigArgs,
        handleGenerateRenderConfig args2 (loadRenderConfig a1 regionEnv) oracle =
          handleGenerateRenderConfig args2 (loadRenderConfig a2 regionEnv) oracle :=
      fun args2 => handleGen_congr args2 _ _ oracle rfl hpres
    unfold callToolHandler
    by_cases h1 : toolName = "create_deno_service"
    · simp [h1]
    · by_cases h2 : toolName = "generate_render_config"
      · simp +decide [h1, h2]
        cases validateGenerateRenderConfigArgs raw with
        | error e => rfl
        | ok args2 => simp only [hcongr]
      · simp [h1, h2]
  · have hgen : generateOps args (loadRenderConfig a1 regionEnv) =
        generateOps args (loadRenderConfig a2 regionEnv) := rfl
    unfold handleGenerateRenderConfig
    rw [hgen]
    cases hx : (runOps (generateOps args (loadRenderConfig a2 regionEnv)) oracle).2 <;>
      simp [hx]
  · intro hok
    have hr := runOps_ok (generateOps args (loadRenderConfig a1 regionEnv)) oracle hok
    simp [handleGenerateRenderConfig, hr]

/-- C10 counterexample: two runs that differ only in the value of the
(set) API-key variable — empty versus non-empty — produce different
response texts, so value-independence as stated fails. -/
theorem c10_counterexample :
    (some "" : Option String).isSome = true ∧
    (some "k" : Option String).isSome = true ∧
    (handleGenerateRenderConfig ⟨"svc", "/tmp/svc", none, none, none, none⟩
        (loadRenderConfig (some "") (some "oregon")) okOracle).1.text ≠
      (handleGenerateRenderConfig ⟨"svc", "/tmp/svc", none, none, none, none⟩
        (loadRenderConfig (some "k") (some "oregon")) okOracle).1.text :=
  ⟨rfl, rfl, by decide⟩

/-- C10 witness: two distinct non-empty keys give identical dispatch
results. -/
theorem c10_witness :
    callToolHandler (loadRenderConfig (some "keyA") (some "ohio")) "generate_render_config"
        (some (.obj [("name", .str "svc"), ("path", .str "/tmp")])) okOracle =
      callToolHandler (loadRenderConfig (some "keyB") (some "ohio")) "generate_render_config"
        (some (.obj [("name", .str "svc"), ("path", .str "/tmp")])) okOracle :=
  (c10_theorem (some "keyA") (some "keyB") (some "ohio") "generate_render_config"
    (some (.obj [("name", .str "svc"), ("path", .str "/tmp")])) okOracle
    ⟨"svc", "/tmp", none, none, none, none⟩).1 (by decide)
